import Mathlib

/-!
Verification of src/kibana-importer.py, a batch client that imports a Kibana
export.json file (an array of saved-object records) into a running Kibana
instance via its REST API.

The embedding is value-level and executable:

 - Python/JSON values are modelled by the inductive type `Json`; dictionaries
   are ordered association lists with unique keys (Python dicts preserve
   insertion order; assignment to an existing key replaces in place).
 - `obj[key]` subscription is `getItem`, returning `Except` (`KeyError` on a
   missing key of a dict, `TypeError` when the subscripted value is not a
   dict), matching which Python exceptions the bare `except:` blocks swallow.
 - `json.loads` is `json_loads`, a fueled recursive-descent parser over the
   character list of the input (structural in its fuel, so that it evaluates
   inside the kernel).  It covers objects, arrays, strings with the common
   escapes, integers and the three literals, which is the fragment exercised
   by Kibana export data.
 - `str.replace` is `pyReplace`, the left-to-right non-overlapping
   replacement of every occurrence, including the Python behaviour on an
   empty pattern (the replacement is interleaved around every character).
 - `str(x)` is `pyStr` (with `pyRepr` for values nested inside containers).
 - Network effects are parameters: the poll outcomes seen by
   `wait_for_green_status` are a stream `Nat → PollOutcome`, the per-request
   responses of the uploader are an oracle `UpsertRequest → PostResult`, and
   the settings lookup of `get_default_index` (a network read that returns
   the empty string on any failure) is passed to `main_steps` as the string
   `newidx`.
 - `upload_kibana_saved_json` is split into a pure request-building pass
   (`buildRequests`, the loop body of the source: classification,
   diagnostics for unknown types, request construction) followed by
   `gather_results` (the `asyncio.gather`, which propagates the exception of
   any failed post) and `check_responses` (the final `raise_for_status`
   loop).  A record missing a required field aborts request building with
   the corresponding error, as the uncaught `KeyError` does in the source.
 - `main_steps` is the trace of the entry point after `json.load`: which of
   the readiness wait, the remap diagnostic and the batch upload run, and
   with which (possibly rewritten) record array, exactly following the
   control flow of `main` (lines 126-138 of the source, including the
   indentation that places the upload call inside the `if args.fix_idx`
   block, and the duplicated `oldidx != ""` test on line 133).
-/

/-- Model of a Python/JSON value as manipulated by the script.  Numbers are
integers, which covers the fields the script touches. -/
inductive Json where
  | null
  | bool (b : Bool)
  | num (n : Int)
  | str (s : String)
  | arr (xs : List Json)
  | obj (fields : List (String × Json))

/-- Lookup of a key in a dict (first occurrence; keys are unique in dicts
produced by parsing). -/
def lookupField : List (String × Json) → String → Option Json
  | [], _ => none
  | (k, v) :: rest, key => if k = key then some v else lookupField rest key

/-- Assignment `d[key] = v` on a dict: replaces the value of an existing key
in place, appends otherwise. -/
def setField : List (String × Json) → String → Json → List (String × Json)
  | [], key, v => [(key, v)]
  | (k, w) :: rest, key, v =>
    if k = key then (key, v) :: rest else (k, w) :: setField rest key v

/-- Python subscription `x[key]` with a string key: `KeyError` when the key
is missing from a dict, `TypeError` when `x` is not a dict.  These are the
exceptions the bare `except:` handlers of the script swallow. -/
def getItem (j : Json) (k : String) : Except String Json :=
  match j with
  | Json.obj fs =>
    match lookupField fs k with
    | some v => Except.ok v
    | none => Except.error ("KeyError: " ++ k)
  | _ => Except.error "TypeError"

/-- True when `obj[k]` succeeds. -/
def keyOk (obj : Json) (k : String) : Bool :=
  match getItem obj k with
  | Except.ok _ => true
  | Except.error _ => false

/-- Value of `obj[k]`, with `null` as an unused default for the failing
case (used only to state results about records on which `getItem`
succeeds). -/
def fieldOr (obj : Json) (k : String) : Json :=
  match getItem obj k with
  | Except.ok v => v
  | Except.error _ => Json.null

mutual
/-- Python `repr` of a value, used for values nested inside containers when
the script stringifies them via `format`. -/
def pyRepr : Json → String
  | Json.null => "None"
  | Json.bool true => "True"
  | Json.bool false => "False"
  | Json.num n => toString n
  | Json.str s => "\x27" ++ s ++ "\x27"
  | Json.arr xs => "[" ++ pyReprElems xs ++ "]"
  | Json.obj fs => "\x7b" ++ pyReprFields fs ++ "\x7d"

/-- Comma-separated reprs of the elements of a list. -/
def pyReprElems : List Json → String
  | [] => ""
  | [x] => pyRepr x
  | x :: y :: rest => pyRepr x ++ ", " ++ pyReprElems (y :: rest)

/-- Comma-separated reprs of the entries of a dict. -/
def pyReprFields : List (String × Json) → String
  | [] => ""
  | [(k, v)] => "\x27" ++ k ++ "\x27: " ++ pyRepr v
  | (k, v) :: x :: rest => "\x27" ++ k ++ "\x27: " ++ pyRepr v ++ ", " ++ pyReprFields (x :: rest)
end

/-- Python `str(x)`: the string itself for strings, `repr` otherwise (for
the value kinds modelled here). -/
def pyStr (j : Json) : String :=
  match j with
  | Json.str s => s
  | _ => pyRepr j

/-- Whitespace skipping of the JSON parser. -/
def skipWs : List Char → List Char
  | c :: rest => if c = ' ' ∨ c = '\t' ∨ c = '\n' ∨ c = '\r' then skipWs rest else c :: rest
  | [] => []

/-- Translation of the common JSON string escapes. -/
def escapeChar (c : Char) : Option Char :=
  if c = '"' then some '"'
  else if c = '\\' then some '\\'
  else if c = '/' then some '/'
  else if c = 'n' then some '\n'
  else if c = 't' then some '\t'
  else if c = 'r' then some '\r'
  else none

/-- Body of a JSON string literal, after the opening quote. -/
def parseStringBody : List Char → Option (String × List Char)
  | [] => none
  | '"' :: rest => some ("", rest)
  | '\\' :: rest =>
    match rest with
    | [] => none
    | c :: rest2 =>
      match escapeChar c with
      | none => none
      | some ec =>
        match parseStringBody rest2 with
        | none => none
        | some (s, r) => some (ec.toString ++ s, r)
  | c :: rest =>
    match parseStringBody rest with
    | none => none
    | some (s, r) => some (c.toString ++ s, r)

/-- Digit accumulation for number literals. -/
def parseNatAux : List Char → Nat → Nat × List Char
  | c :: rest, acc =>
    if c.isDigit then parseNatAux rest (acc * 10 + (c.toNat - '0'.toNat)) else (acc, c :: rest)
  | [], acc => (acc, [])

/-- A non-negative integer literal. -/
def parseNatNum (cs : List Char) : Option (Nat × List Char) :=
  match cs with
  | c :: _ => if c.isDigit then some (parseNatAux cs 0) else none
  | [] => none

mutual
/-- A JSON value.  The fuel argument only bounds the recursion depth; it is
chosen large enough in `json_loads` to never run out on its input. -/
def parseVal : Nat → List Char → Option (Json × List Char)
  | 0, _ => none
  | Nat.succ fuel, cs =>
    match skipWs cs with
    | '"' :: rest =>
      match parseStringBody rest with
      | none => none
      | some (s, r) => some (Json.str s, r)
    | '{' :: rest =>
      match skipWs rest with
      | '}' :: rest2 => some (Json.obj [], rest2)
      | rest2 =>
        match parseMembers fuel rest2 with
        | none => none
        | some (fs, r) => some (Json.obj fs, r)
    | '[' :: rest =>
      match skipWs rest with
      | ']' :: rest2 => some (Json.arr [], rest2)
      | rest2 =>
        match parseElems fuel rest2 with
        | none => none
        | some (xs, r) => some (Json.arr xs, r)
    | 't' :: 'r' :: 'u' :: 'e' :: rest => some (Json.bool true, rest)
    | 'f' :: 'a' :: 'l' :: 's' :: 'e' :: rest => some (Json.bool false, rest)
    | 'n' :: 'u' :: 'l' :: 'l' :: rest => some (Json.null, rest)
    | '-' :: rest =>
      match parseNatNum rest with
      | none => none
      | some (n, r) => some (Json.num (-(n : Int)), r)
    | cs2 =>
      match parseNatNum cs2 with
      | none => none
      | some (n, r) => some (Json.num (n : Int), r)

/-- The members of a JSON object, after the opening brace (non-empty case). -/
def parseMembers : Nat → List Char → Option (List (String × Json) × List Char)
  | 0, _ => none
  | Nat.succ fuel, cs =>
    match skipWs cs with
    | '"' :: rest =>
      match parseStringBody rest with
      | none => none
      | some (k, rest2) =>
        match skipWs rest2 with
        | ':' :: rest3 =>
          match parseVal fuel rest3 with
          | none => none
          | some (v, rest4) =>
            match skipWs rest4 with
            | ',' :: rest5 =>
              match parseMembers fuel rest5 with
              | none => none
              | some (fs, r) => some ((k, v) :: fs, r)
            | '}' :: rest5 => some ([(k, v)], rest5)
            | _ => none
        | _ => none
    | _ => none

/-- The elements of a JSON array, after the opening bracket (non-empty case). -/
def parseElems : Nat → List Char → Option (List Json × List Char)
  | 0, _ => none
  | Nat.succ fuel, cs =>
    match parseVal fuel cs with
    | none => none
    | some (v, rest) =>
      match skipWs rest with
      | ',' :: rest2 =>
        match parseElems fuel rest2 with
        | none => none
        | some (xs, r) => some (v :: xs, r)
      | ']' :: rest2 => some ([v], rest2)
      | _ => none
end

/-- Model of `json.loads` on a string: parse one value and require only
trailing whitespace after it. -/
def json_loads (s : String) : Option Json :=
  let cs := s.toList
  match parseVal (2 * cs.length + 2) cs with
  | some (v, rest) => if (skipWs rest).isEmpty then some v else none
  | none => none

/-- Prefix test on character lists, used by the replacement loop. -/
def startsWithChars : List Char → List Char → Bool
  | _, [] => true
  | [], _ :: _ => false
  | c :: cs, p :: ps => c = p && startsWithChars cs ps

/-- Left-to-right, non-overlapping replacement of every occurrence of `old`
by `new`, on character lists.  The fuel is the length of the scanned list;
each step consumes at least one character, so it never runs out. -/
def pyReplaceChars (old new : List Char) : Nat → List Char → List Char
  | _, [] => []
  | 0, cs => cs
  | Nat.succ fuel, c :: cs =>
    if startsWithChars (c :: cs) old then
      new ++ pyReplaceChars old new fuel (List.drop old.length (c :: cs))
    else
      c :: pyReplaceChars old new fuel cs

/-- Model of Python `s.replace(old, new)`, including the behaviour on the
empty pattern (Python interleaves `new` around every character). -/
def pyReplace (s old new : String) : String :=
  if old.isEmpty then
    String.mk (new.toList ++ (s.toList.map (fun c => c :: new.toList)).flatten)
  else
    String.mk (pyReplaceChars old.toList new.toList s.toList.length s.toList)

/-- Source `replace_id(obj, old, new)`: replace `old` by `new` inside the
string value at `obj["_source"]["kibanaSavedObjectMeta"]["searchSourceJSON"]`
and store it back; if any step of that path fails (including the value not
being a string, on which `.replace` would raise), the bare `except:` returns
the record unchanged. -/
def replace_id (obj : Json) (old new : String) : Json :=
  match obj with
  | Json.obj fs =>
    match lookupField fs "_source" with
    | some (Json.obj srcFs) =>
      match lookupField srcFs "kibanaSavedObjectMeta" with
      | some (Json.obj metaFs) =>
        match lookupField metaFs "searchSourceJSON" with
        | some (Json.str s) =>
          Json.obj (setField fs "_source" (Json.obj (setField srcFs "kibanaSavedObjectMeta"
            (Json.obj (setField metaFs "searchSourceJSON" (Json.str (pyReplace s old new)))))))
        | _ => obj
      | _ => obj
    | _ => obj
  | _ => obj

/-- Observer for the embedded search-source field: the string at
`obj["_source"]["kibanaSavedObjectMeta"]["searchSourceJSON"]`, when that
path resolves to a string. -/
def getSearchSource (obj : Json) : Option String :=
  match obj with
  | Json.obj fs =>
    match lookupField fs "_source" with
    | some (Json.obj srcFs) =>
      match lookupField srcFs "kibanaSavedObjectMeta" with
      | some (Json.obj metaFs) =>
        match lookupField metaFs "searchSourceJSON" with
        | some (Json.str s) => some s
        | _ => none
      | _ => none
    | _ => none
  | _ => none

/-- Body of the per-record `try` of `get_old_default_index`:
`str(json.loads(obj["_source"]["kibanaSavedObjectMeta"]["searchSourceJSON"])["index"])`,
with every failure mode (path not resolving, the value not being a string,
a parse error, the parsed value lacking an `index` key) collapsing to
`none`, as the `except: pass` does. -/
def extract_index (obj : Json) : Option String :=
  match getSearchSource obj with
  | none => none
  | some s =>
    match json_loads s with
    | none => none
    | some parsed =>
      match getItem parsed "index" with
      | Except.error _ => none
      | Except.ok idxv => some (pyStr idxv)

/-- Source `get_old_default_index(objs)`: first successful per-record
extraction wins; the empty string when no record yields one. -/
def get_old_default_index : List Json → String
  | [] => ""
  | obj :: objs =>
    match extract_index obj with
    | some found => found
    | none => get_old_default_index objs

/-- The recognized saved-object types of the upload loop. -/
def kibanaTypes : List String := ["dashboard", "search", "visualization"]

/-- Python `typ in ["dashboard", "search", "visualization"]` for an
arbitrary value `typ` (a non-string value is never in that list). -/
def isEligibleType : Json → Bool
  | Json.str s => kibanaTypes.contains s
  | _ => false

/-- A record whose `_type` field exists and is a recognized type. -/
def recordEligible (obj : Json) : Bool :=
  match getItem obj "_type" with
  | Except.ok t => isEligibleType t
  | Except.error _ => false

/-- The fields the upload loop reads without guarding: `_type` on every
record, and `_id` and `_source` on records of a recognized type. -/
def wellFormed (obj : Json) : Bool :=
  keyOk obj "_type" && (!recordEligible obj || (keyOk obj "_id" && keyOk obj "_source"))

/-- One outbound upsert request as assembled by the upload loop. -/
structure UpsertRequest where
  method : String
  url : String
  headers : List (String × String)
  body : Json

/-- Request constructed for one eligible record: `s.post` to
`{base}/api/saved_objects/{typ}/{id}?overwrite=true` with the anti-forgery
header and body `{"attributes": source}`. -/
def mkUpsertRequest (base : String) (typ idv src : Json) : UpsertRequest :=
  { method := "POST"
  , url := base ++ "/api/saved_objects/" ++ pyStr typ ++ "/" ++ pyStr idv ++ "?overwrite=true"
  , headers := [("kbn-xsrf", "anything")]
  , body := Json.obj [("attributes", src)] }

/-- The diagnostic printed to stderr for a record of unrecognized type. -/
def diagMsg (obj : Json) : String :=
  "Ignoring unknown Kibana export type: " ++ pyStr (fieldOr obj "_type")

/-- The request-building pass of `upload_kibana_saved_json`: the loop over
the input array.  For each record it reads `_type` (an uncaught `KeyError`
aborts), emits a diagnostic and skips the record when the type is not
recognized, and otherwise reads `_id` and `_source` (again uncaught on
failure) and assembles one upsert request.  Returns the dispatched requests
and the stderr diagnostics, in input order. -/
def buildRequests (base : String) : List Json → Except String (List UpsertRequest × List String)
  | [] => Except.ok ([], [])
  | obj :: rest =>
    match getItem obj "_type" with
    | Except.error e => Except.error e
    | Except.ok typ =>
      if isEligibleType typ then
        match getItem obj "_id" with
        | Except.error e => Except.error e
        | Except.ok idv =>
          match getItem obj "_source" with
          | Except.error e => Except.error e
          | Except.ok src =>
            match buildRequests base rest with
            | Except.error e => Except.error e
            | Except.ok (reqs, diags) =>
              Except.ok (mkUpsertRequest base typ idv src :: reqs, diags)
      else
        match buildRequests base rest with
        | Except.error e => Except.error e
        | Except.ok (reqs, diags) =>
          Except.ok (reqs, ("Ignoring unknown Kibana export type: " ++ pyStr typ) :: diags)

/-- Outcome of one dispatched post: a response with an HTTP status code, or
a transport-level exception raised inside the executor. -/
inductive PostResult where
  | resp (status : Nat)
  | exn (e : String)

/-- A post outcome that `raise_for_status` or `gather` turns into a batch
failure: a transport exception, or a 4xx/5xx status. -/
def respFailed : PostResult → Bool
  | PostResult.exn _ => true
  | PostResult.resp st => decide (400 ≤ st ∧ st < 600)

/-- Model of `Response.raise_for_status` of the requests library: raise
`HTTPError` exactly on status codes 400-599. -/
def raise_for_status (st : Nat) : Except String Unit :=
  if 400 ≤ st ∧ st < 600 then Except.error ("HTTPError " ++ toString st) else Except.ok ()

/-- Model of `await asyncio.gather(*futures)`: wait for all posts; if any of
them raised, the gather re-raises (determinized here to the first raised
exception in dispatch order), otherwise it yields the status codes in
dispatch order. -/
def gather_results : List PostResult → Except String (List Nat)
  | [] => Except.ok []
  | PostResult.exn e :: _ => Except.error e
  | PostResult.resp st :: rest =>
    match gather_results rest with
    | Except.error e => Except.error e
    | Except.ok sts => Except.ok (st :: sts)

/-- The final loop of the uploader: `raise_for_status` on every gathered
response, in order; the first failing status aborts. -/
def check_responses : List Nat → Except String Unit
  | [] => Except.ok ()
  | st :: rest =>
    match raise_for_status st with
    | Except.error e => Except.error e
    | Except.ok _ => check_responses rest

/-- Source `upload_kibana_saved_json(kibana_base_url, jsonArray)` with the
network abstracted as a response oracle `net`: build and dispatch one
request per eligible record, gather all responses, then check every status.
The overall result is the raised exception, if any. -/
def upload_kibana_saved_json (base : String) (arr : List Json)
    (net : UpsertRequest → PostResult) : Except String Unit :=
  match buildRequests base arr with
  | Except.error e => Except.error e
  | Except.ok (reqs, _diags) =>
    match gather_results (reqs.map net) with
    | Except.error e => Except.error e
    | Except.ok statuses => check_responses statuses

/-- One poll of the status endpoint inside `wait_for_green_status`: either
the GET raises `requests.exceptions.ConnectionError`, or a response arrives
with a status code and a body (the raw text that `r.json()` parses). -/
inductive PollOutcome where
  | connectionError
  | status (code : Nat) (body : String)

/-- What one iteration of the wait loop does with its poll. -/
inductive WaitStep where
  | done
  | retry
  | raised (e : String)

/-- Python `status == "green"` on the extracted health value. -/
def isGreenVal : Json → Bool
  | Json.str s => s == "green"
  | _ => false

/-- The field chain `r.json()["status"]["overall"]["state"]`. -/
def healthState (j : Json) : Except String Json :=
  match getItem j "status" with
  | Except.error e => Except.error e
  | Except.ok st =>
    match getItem st "overall" with
    | Except.error e => Except.error e
    | Except.ok ov => getItem ov "state"

/-- One iteration of the `while True` loop of `wait_for_green_status`: a
connection error is caught and retried (after `time.sleep(0.1)`); on a
response, `raise_for_status` raises uncaught on 4xx/5xx, a body that fails
to parse or lacks the health path raises uncaught, a green state breaks the
loop, and any other state retries (after the same sleep). -/
def wait_step (p : PollOutcome) : WaitStep :=
  match p with
  | PollOutcome.connectionError => WaitStep.retry
  | PollOutcome.status code body =>
    match raise_for_status code with
    | Except.error e => WaitStep.raised e
    | Except.ok _ =>
      match json_loads body with
      | none => WaitStep.raised "JSONDecodeError"
      | some j =>
        match healthState j with
        | Except.error e => WaitStep.raised e
        | Except.ok v => if isGreenVal v then WaitStep.done else WaitStep.retry

/-- How `wait_for_green_status` terminates, when it does: a normal return
after breaking on green, or an uncaught exception; in both cases with the
number of polls that were issued. -/
inductive WaitResult where
  | returns (pollsUsed : Nat)
  | raises (e : String) (pollsUsed : Nat)

/-- Run the wait loop against the poll stream, starting at poll index `i`,
for at most `fuel` iterations; `none` means the loop was still retrying
after `fuel` polls. -/
def wait_run (polls : Nat → PollOutcome) : Nat → Nat → Option WaitResult
  | _, 0 => none
  | i, Nat.succ fuel =>
    match wait_step (polls i) with
    | WaitStep.done => some (WaitResult.returns (i + 1))
    | WaitStep.raised e => some (WaitResult.raises e (i + 1))
    | WaitStep.retry => wait_run polls (i + 1) fuel

/-- A poll outcome the loop retries on: a connection error, or a successful
response whose body parses and carries a non-green health state. -/
def retryablePoll (p : PollOutcome) : Prop :=
  p = PollOutcome.connectionError ∨
  ∃ code body j v, p = PollOutcome.status code body ∧ ¬(400 ≤ code ∧ code < 600) ∧
    json_loads body = some j ∧ healthState j = Except.ok v ∧ isGreenVal v = false

/-- A poll outcome the loop breaks on: a successful response whose body
parses and carries the green health state. -/
def greenPoll (p : PollOutcome) : Prop :=
  ∃ code body j v, p = PollOutcome.status code body ∧ ¬(400 ≤ code ∧ code < 600) ∧
    json_loads body = some j ∧ healthState j = Except.ok v ∧ isGreenVal v = true

/-- One step of the trace of `main` after `json.load`. -/
inductive MainStep where
  | waitForGreen
  | remapMissingDiag
  | uploadBatch (arr : List Json)

/-- Trace of the entry point after parsing, exactly following the control
flow of `main`: the optional readiness wait; then, only when `--fix-idx` is
given, the remap block, whose guard is the duplicated test
`oldidx != "" and oldidx != ""` of the source (it never inspects `newidx`,
the value discovered from the live settings endpoint and passed here as a
parameter), and the upload, whose call is nested inside the same
`if args.fix_idx` block in the source. -/
def main_steps (wait fix_idx : Bool) (newidx : String) (jsonArray : List Json) : List MainStep :=
  (if wait then [MainStep.waitForGreen] else []) ++
  (if fix_idx then
    (let oldidx := get_old_default_index jsonArray
     if oldidx ≠ "" ∧ oldidx ≠ "" then
       [MainStep.uploadBatch (jsonArray.map (fun x => replace_id x oldidx newidx))]
     else
       [MainStep.remapMissingDiag, MainStep.uploadBatch jsonArray])
   else [])

/-- Search-source string of the C2 scenario record. -/
def ssC2 : String := "\x7b\"index\":\"foo-*\"\x7d"

/-- A well-formed search record whose embedded search-source references the
index `foo-*`. -/
def recC2 : Json :=
  Json.obj [("_type", Json.str "search"), ("_id", Json.str "s1"),
    ("_source", Json.obj [("kibanaSavedObjectMeta",
      Json.obj [("searchSourceJSON", Json.str ssC2)])])]

/-- The same record after the remap block runs with `newidx = ""`: every
occurrence of `foo-*` replaced by the empty string. -/
def recC2repl : Json :=
  Json.obj [("_type", Json.str "search"), ("_id", Json.str "s1"),
    ("_source", Json.obj [("kibanaSavedObjectMeta",
      Json.obj [("searchSourceJSON", Json.str "\x7b\"index\":\"\"\x7d")])])]

/-- A record whose search-source string parses but has no `index` field. -/
def recA6 : Json :=
  Json.obj [("_type", Json.str "search"), ("_id", Json.str "a"),
    ("_source", Json.obj [("kibanaSavedObjectMeta",
      Json.obj [("searchSourceJSON", Json.str "\x7b\"q\":\"*\"\x7d")])])]

/-- A record whose search-source string carries `index = "foo-*"`. -/
def recB6 : Json :=
  Json.obj [("_type", Json.str "search"), ("_id", Json.str "b"),
    ("_source", Json.obj [("kibanaSavedObjectMeta",
      Json.obj [("searchSourceJSON", Json.str "\x7b\"index\":\"foo-*\"\x7d")])])]

/-- A record whose search-source string carries `index = "bar-*"`. -/
def recC6 : Json :=
  Json.obj [("_type", Json.str "visualization"), ("_id", Json.str "c"),
    ("_source", Json.obj [("kibanaSavedObjectMeta",
      Json.obj [("searchSourceJSON", Json.str "\x7b\"index\":\"bar-*\"\x7d")])])]

/-- Search-source string of the C5 replacement witness, with two
occurrences of `foo-*`. -/
def ssC5 : String := "\x7b\"index\":\"foo-*\",\"q\":\"foo-* AND x\"\x7d"

/-- A record carrying `ssC5` as its embedded search-source string. -/
def recC5 : Json :=
  Json.obj [("_type", Json.str "search"), ("_id", Json.str "s5"),
    ("_source", Json.obj [("title", Json.str "t"),
      ("kibanaSavedObjectMeta", Json.obj [("searchSourceJSON", Json.str ssC5)])])]

/-- A record without the embedded search-source field. -/
def recC5none : Json :=
  Json.obj [("_type", Json.str "dashboard"), ("_id", Json.str "d5"),
    ("_source", Json.obj [("title", Json.str "t")])]

/-- Field list of the C10 frame witness record: sibling fields next to the
search-source string at every level of the path. -/
def fsC10 : List (String × Json) :=
  [("_type", Json.str "search"), ("_id", Json.str "x10"),
   ("_source", Json.obj [("kibanaSavedObjectMeta",
      Json.obj [("searchSourceJSON", Json.str "abc old abc"), ("extra", Json.num 3)]),
      ("title", Json.str "T")])]

/-- An eligible, fully populated search record for the C4 witness. -/
def recC4 : Json :=
  Json.obj [("_type", Json.str "search"), ("_id", Json.str "s4"),
    ("_source", Json.obj [("title", Json.str "t4")])]

/-- The request that the uploader assembles for `recC4`. -/
def reqC4 : UpsertRequest :=
  { method := "POST"
  , url := "http://k/api/saved_objects/search/s4?overwrite=true"
  , headers := [("kbn-xsrf", "anything")]
  , body := Json.obj [("attributes", Json.obj [("title", Json.str "t4")])] }

/-- A response oracle that answers every request with HTTP 500. -/
def netC4 : UpsertRequest → PostResult := fun _ => PostResult.resp 500

/-- An eligible dashboard record for the C7 witness. -/
def recC7a : Json :=
  Json.obj [("_type", Json.str "dashboard"), ("_id", Json.str "d7"),
    ("_source", Json.obj [("x", Json.num 1)])]

/-- A record of unrecognized type (and nothing else) for the C7 witness. -/
def recC7b : Json := Json.obj [("_type", Json.str "widget")]

/-- Source payload of the C8 witness record. -/
def srcC8 : Json := Json.obj [("title", Json.str "t8")]

/-- An eligible visualization record for the C8 witness. -/
def objC8 : Json :=
  Json.obj [("_type", Json.str "visualization"), ("_id", Json.str "viz8"), ("_source", srcC8)]

/-- Status body reporting a yellow overall state. -/
def bodyYellowC3 : String := "\x7b\"status\":\x7b\"overall\":\x7b\"state\":\"yellow\"\x7d\x7d\x7d"

/-- Status body reporting a green overall state. -/
def bodyGreenC3 : String := "\x7b\"status\":\x7b\"overall\":\x7b\"state\":\"green\"\x7d\x7d\x7d"

/-- Poll stream of the C3 witness: one connection failure, one yellow
response, then green responses. -/
def pollsC3 : Nat → PollOutcome := fun i =>
  match i with
  | 0 => PollOutcome.connectionError
  | 1 => PollOutcome.status 200 bodyYellowC3
  | _ => PollOutcome.status 200 bodyGreenC3

/-- Claim C1: the entry point was specified to run the readiness wait, the
index remap and then the batch upload, with the upload performed regardless
of the optional toggles.  The code disagrees: when `--fix-idx` is off the
trace of `main` after parsing contains no upload at all (the upload call is
nested inside the `if args.fix_idx` block), for every input array and every
discovered new index. -/
theorem main_upload_skipped_without_fix_idx :
    ∀ (w : Bool) (newidx : String) (arr : List Json),
      main_steps w false newidx arr = if w then [MainStep.waitForGreen] else [] := by
  intro w newidx arr
  cases w <;> simp [main_steps]

/-- Claim C2: remapping was specified to be skipped for the whole batch when
either discovered id is absent.  The code disagrees: with the new index
absent (`newidx = ""`) but the old index discovered (`foo-*`), the guard
`oldidx != "" and oldidx != ""` still fires, so the batch is uploaded with
every record rewritten (here `foo-*` replaced by the empty string) and no
diagnostic step occurs. -/
theorem main_remap_despite_missing_new_index :
    main_steps false true "" [recC2] = [MainStep.uploadBatch [recC2repl]] ∧
      getSearchSource recC2repl ≠ getSearchSource recC2 :=
  ⟨rfl, by decide⟩

/-- Claim C3 counterexample: `wait_for_green_status` was claimed never to
return an error, treating a non-success HTTP status as "not ready yet".
The code disagrees: on a poll answered with status 500, `raise_for_status`
raises `HTTPError` outside the `except ConnectionError` handler and the
loop terminates with that exception after the first poll. -/
theorem wait_for_green_raises_on_http_error :
    wait_run (fun _ => PollOutcome.status 500 "") 0 1 =
      some (WaitResult.raises "HTTPError 500" 1) := rfl

/-- Claim C6: `get_old_default_index` scans the records in input order and
returns the value extracted from the first record whose embedded
search-source string parses as JSON and contains an `index` field; records
on which extraction fails are skipped (the function is total, so no
per-record failure escapes); the result is the empty string when no record
yields a value.  Stated as: (1) the all-fail case returns the empty string;
(2) the first record with a successful extraction wins, whatever follows
it; (3) extraction succeeds exactly through the search-source string
parsing and carrying an `index` field. -/
theorem get_old_default_index_first_match :
    (∀ objs : List Json, (∀ o ∈ objs, extract_index o = none) →
       get_old_default_index objs = "") ∧
    (∀ (pre : List Json) (obj : Json) (rest : List Json) (v : String),
       (∀ p ∈ pre, extract_index p = none) → extract_index obj = some v →
       get_old_default_index (pre ++ obj :: rest) = v) ∧
    (∀ (obj : Json) (s : String) (j idxv : Json),
       getSearchSource obj = some s → json_loads s = some j →
       getItem j "index" = Except.ok idxv → extract_index obj = some (pyStr idxv)) := by
  refine ⟨?_, ?_, ?_⟩
  · intro objs h
    induction objs with
    | nil => rfl
    | cons o rest ih =>
      have ho := h o (List.mem_cons_self o rest)
      simp only [get_old_default_index, ho]
      exact ih (fun p hp => h p (List.mem_cons_of_mem o hp))
  · intro pre obj rest v hpre hobj
    induction pre with
    | nil => simp only [List.nil_append, get_old_default_index, hobj]
    | cons p pre ih =>
      have hp := hpre p (List.mem_cons_self p pre)
      simp only [List.cons_append, get_old_default_index, hp]
      exact ih (fun q hq => hpre q (List.mem_cons_of_mem p hq))
  · intro obj s j idxv h1 h2 h3
    simp [extract_index, h1, h2, h3]

/-- Witness for C6, the example of the spec: with a first record lacking an
`index` field and two records carrying `foo-*` and `bar-*`, the discovered
old index is `foo-*` (first match wins, order preserved). -/
theorem get_old_default_index_first_match_witness :
    get_old_default_index [recA6, recB6, recC6] = "foo-*" :=
  get_old_default_index_first_match.2.1 [recA6] recB6 [recC6] "foo-*"
    (by decide) (by decide)

/-- Looking up the key just set yields the new value. -/
theorem lookupField_setField_self :
    ∀ (l : List (String × Json)) (k : String) (v : Json),
      lookupField (setField l k v) k = some v := by
  intro l k v
  induction l with
  | nil => simp [setField, lookupField]
  | cons hd tl ih =>
    obtain ⟨k1, w⟩ := hd
    by_cases h : k1 = k
    · subst h; simp [setField, lookupField]
    · simp [setField, lookupField, h, ih]

/-- Setting one key leaves the lookup of every other key unchanged. -/
theorem lookupField_setField_ne :
    ∀ (l : List (String × Json)) (k k2 : String) (v : Json),
      k2 ≠ k → lookupField (setField l k v) k2 = lookupField l k2 := by
  intro l k k2 v hne
  have hke : ¬ k = k2 := fun h => hne h.symm
  induction l with
  | nil => simp [setField, lookupField, hke]
  | cons hd tl ih =>
    obtain ⟨k1, w⟩ := hd
    by_cases h : k1 = k
    · subst h
      simp [setField, lookupField, hke]
    · simp only [setField, if_neg h]
      by_cases h2 : k1 = k2
      · simp [lookupField, h2]
      · simp [lookupField, h2, ih]

/-- Inversion of a resolved search-source path: the three dict lookups that
the observer went through. -/
theorem getSearchSource_obj_inv :
    ∀ (fs : List (String × Json)) (s : String),
      getSearchSource (Json.obj fs) = some s →
      ∃ srcFs metaFs,
        lookupField fs "_source" = some (Json.obj srcFs) ∧
        lookupField srcFs "kibanaSavedObjectMeta" = some (Json.obj metaFs) ∧
        lookupField metaFs "searchSourceJSON" = some (Json.str s) := by
  intro fs s h
  rcases h1 : lookupField fs "_source" with _ | v1
  · simp [getSearchSource, h1] at h
  · cases v1 with
    | obj srcFs =>
      rcases h2 : lookupField srcFs "kibanaSavedObjectMeta" with _ | v2
      · simp [getSearchSource, h1, h2] at h
      · cases v2 with
        | obj metaFs =>
          rcases h3 : lookupField metaFs "searchSourceJSON" with _ | v3
          · simp [getSearchSource, h1, h2, h3] at h
          · cases v3 with
            | str s0 =>
              simp [getSearchSource, h1, h2, h3] at h
              subst h
              exact ⟨srcFs, metaFs, rfl, h2, h3⟩

            | null => simp [getSearchSource, h1, h2, h3] at h
            | bool b => simp [getSearchSource, h1, h2, h3] at h
            | num n => simp [getSearchSource, h1, h2, h3] at h
            | arr xs => simp [getSearchSource, h1, h2, h3] at h
            | obj fs2 => simp [getSearchSource, h1, h2, h3] at h
        | null => simp [getSearchSource, h1, h2] at h
        | bool b => simp [getSearchSource, h1, h2] at h
        | num n => simp [getSearchSource, h1, h2] at h
        | str s2 => simp [getSearchSource, h1, h2] at h
        | arr xs => simp [getSearchSource, h1, h2] at h
    | null => simp [getSearchSource, h1] at h
    | bool b => simp [getSearchSource, h1] at h
    | num n => simp [getSearchSource, h1] at h
    | str s2 => simp [getSearchSource, h1] at h
    | arr xs => simp [getSearchSource, h1] at h

/-- On a resolved path, `replace_id` rewrites the record to the nested
`setField` form. -/
theorem replace_id_resolved :
    ∀ (fs srcFs metaFs : List (String × Json)) (s old new : String),
      lookupField fs "_source" = some (Json.obj srcFs) →
      lookupField srcFs "kibanaSavedObjectMeta" = some (Json.obj metaFs) →
      lookupField metaFs "searchSourceJSON" = some (Json.str s) →
      replace_id (Json.obj fs) old new =
        Json.obj (setField fs "_source" (Json.obj (setField srcFs "kibanaSavedObjectMeta"
          (Json.obj (setField metaFs "searchSourceJSON"
            (Json.str (pyReplace s old new))))))) := by
  intro fs srcFs metaFs s old new h1 h2 h3
  simp [replace_id, h1, h2, h3]

/-- When the search-source path does not resolve to a string, `replace_id`
returns the record unchanged. -/
theorem replace_id_noop_of_none :
    ∀ (obj : Json) (old new : String),
      getSearchSource obj = none → replace_id obj old new = obj := by
  intro obj old new h
  cases obj with
  | null => rfl
  | bool b => rfl
  | num n => rfl
  | str s => rfl
  | arr xs => rfl
  | obj fs =>
    rcases h1 : lookupField fs "_source" with _ | v1
    · simp [replace_id, h1]
    · cases v1 with
      | obj srcFs =>
        rcases h2 : lookupField srcFs "kibanaSavedObjectMeta" with _ | v2
        · simp [replace_id, h1, h2]
        · cases v2 with
          | obj metaFs =>
            rcases h3 : lookupField metaFs "searchSourceJSON" with _ | v3
            · simp [replace_id, h1, h2, h3]
            · cases v3 with
              | str s => simp [getSearchSource, h1, h2, h3] at h
              | null => simp [replace_id, h1, h2, h3]
              | bool b => simp [replace_id, h1, h2, h3]
              | num n => simp [replace_id, h1, h2, h3]
              | arr xs => simp [replace_id, h1, h2, h3]
              | obj fs2 => simp [replace_id, h1, h2, h3]
          | null => simp [replace_id, h1, h2]
          | bool b => simp [replace_id, h1, h2]
          | num n => simp [replace_id, h1, h2]
          | str s2 => simp [replace_id, h1, h2]
          | arr xs => simp [replace_id, h1, h2]
      | null => simp [replace_id, h1]
      | bool b => simp [replace_id, h1]
      | num n => simp [replace_id, h1]
      | str s2 => simp [replace_id, h1]
      | arr xs => simp [replace_id, h1]

/-- When the search-source path resolves, the rewritten record carries the
replaced string at that path. -/
theorem replace_id_search_source_some :
    ∀ (obj : Json) (old new s : String),
      getSearchSource obj = some s →
      getSearchSource (replace_id obj old new) = some (pyReplace s old new) := by
  intro obj old new s h
  cases obj with
  | null => simp [getSearchSource] at h
  | bool b => simp [getSearchSource] at h
  | num n => simp [getSearchSource] at h
  | str s2 => simp [getSearchSource] at h
  | arr xs => simp [getSearchSource] at h
  | obj fs =>
    obtain ⟨srcFs, metaFs, h1, h2, h3⟩ := getSearchSource_obj_inv fs s h
    rw [replace_id_resolved fs srcFs metaFs s old new h1 h2 h3]
    simp [getSearchSource, lookupField_setField_self]

/-- Claim C5: for every record and every pair of ids, `replace_id` replaces
every literal occurrence of `old` by `new` inside the raw string value of
the embedded search-source field (left-to-right non-overlapping literal
replacement, `pyReplace`), and when the field path does not resolve the
record is returned completely unmodified, so the operation is never
partially applied. -/
theorem replace_id_replaces_search_source :
    ∀ (obj : Json) (old new : String),
      (∀ s, getSearchSource obj = some s →
         getSearchSource (replace_id obj old new) = some (pyReplace s old new)) ∧
      (getSearchSource obj = none → replace_id obj old new = obj) :=
  fun obj old new =>
    ⟨fun s h => replace_id_search_source_some obj old new s h,
     fun h => replace_id_noop_of_none obj old new h⟩

/-- Witness for C5: on a record whose search-source string contains two
occurrences of `foo-*`, the mapping `foo-*` to `baz-*` replaces both; on a
record without the field, the record is unchanged. -/
theorem replace_id_replaces_search_source_witness :
    getSearchSource (replace_id recC5 "foo-*" "baz-*") =
      some "\x7b\"index\":\"baz-*\",\"q\":\"baz-* AND x\"\x7d" ∧
    replace_id recC5none "foo-*" "baz-*" = recC5none :=
  ⟨(replace_id_replaces_search_source recC5 "foo-*" "baz-*").1 ssC5 rfl,
   (replace_id_replaces_search_source recC5none "foo-*" "baz-*").2 rfl⟩

/-- Claim C10: when the search-source path resolves, `replace_id` modifies
only the `searchSourceJSON` entry: at each level of the path every other
key looks up unchanged, and the entry itself carries the replaced string. -/
theorem replace_id_frame :
    ∀ (fs : List (String × Json)) (old new s : String),
      getSearchSource (Json.obj fs) = some s →
      ∃ fs2, replace_id (Json.obj fs) old new = Json.obj fs2 ∧
        (∀ k, k ≠ "_source" → lookupField fs2 k = lookupField fs k) ∧
        ∃ srcFs srcFs2,
          lookupField fs "_source" = some (Json.obj srcFs) ∧
          lookupField fs2 "_source" = some (Json.obj srcFs2) ∧
          (∀ k, k ≠ "kibanaSavedObjectMeta" → lookupField srcFs2 k = lookupField srcFs k) ∧
          ∃ metaFs metaFs2,
            lookupField srcFs "kibanaSavedObjectMeta" = some (Json.obj metaFs) ∧
            lookupField srcFs2 "kibanaSavedObjectMeta" = some (Json.obj metaFs2) ∧
            (∀ k, k ≠ "searchSourceJSON" → lookupField metaFs2 k = lookupField metaFs k) ∧
            lookupField metaFs2 "searchSourceJSON" =
              some (Json.str (pyReplace s old new)) := by
  intro fs old new s h
  obtain ⟨srcFs, metaFs, h1, h2, h3⟩ := getSearchSource_obj_inv fs s h
  refine ⟨_, replace_id_resolved fs srcFs metaFs s old new h1 h2 h3,
    fun k hk => lookupField_setField_ne fs "_source" k _ hk,
    srcFs, _, h1, lookupField_setField_self fs "_source" _,
    fun k hk => lookupField_setField_ne srcFs "kibanaSavedObjectMeta" k _ hk,
    metaFs, _, h2, lookupField_setField_self srcFs "kibanaSavedObjectMeta" _,
    fun k hk => lookupField_setField_ne metaFs "searchSourceJSON" k _ hk,
    lookupField_setField_self metaFs "searchSourceJSON" _⟩

/-- Witness for C10, on a record with sibling fields at every level of the
path. -/
theorem replace_id_frame_witness :
    ∃ fs2, replace_id (Json.obj fsC10) "old" "NEW" = Json.obj fs2 ∧
      (∀ k, k ≠ "_source" → lookupField fs2 k = lookupField fsC10 k) ∧
      ∃ srcFs srcFs2,
        lookupField fsC10 "_source" = some (Json.obj srcFs) ∧
        lookupField fs2 "_source" = some (Json.obj srcFs2) ∧
        (∀ k, k ≠ "kibanaSavedObjectMeta" → lookupField srcFs2 k = lookupField srcFs k) ∧
        ∃ metaFs metaFs2,
          lookupField srcFs "kibanaSavedObjectMeta" = some (Json.obj metaFs) ∧
          lookupField srcFs2 "kibanaSavedObjectMeta" = some (Json.obj metaFs2) ∧
          (∀ k, k ≠ "searchSourceJSON" → lookupField metaFs2 k = lookupField metaFs k) ∧
          lookupField metaFs2 "searchSourceJSON" =
            some (Json.str (pyReplace "abc old abc" "old" "NEW")) :=
  replace_id_frame fsC10 "old" "NEW" "abc old abc" rfl

/-- A transport exception among the gathered posts makes the gather itself
raise. -/
theorem gather_results_error_of_exn :
    ∀ (results : List PostResult) (e : String),
      PostResult.exn e ∈ results → ∃ e2, gather_results results = Except.error e2 := by
  intro results e hmem
  induction results with
  | nil => cases hmem
  | cons r rest ih =>
    cases r with
    | exn e2 => exact ⟨e2, rfl⟩
    | resp st =>
      have hr : PostResult.exn e ∈ rest := by
        rcases List.mem_cons.mp hmem with h | h
        · exact PostResult.noConfusion h
        · exact h
      obtain ⟨e2, hg⟩ := ih hr
      exact ⟨e2, by simp [gather_results, hg]⟩

/-- When the gather succeeds, every response status is among the gathered
statuses. -/
theorem gather_results_mem_ok :
    ∀ (results : List PostResult) (sts : List Nat) (st : Nat),
      gather_results results = Except.ok sts → PostResult.resp st ∈ results → st ∈ sts := by
  intro results
  induction results with
  | nil => intro sts st _ hm; cases hm
  | cons r rest ih =>
    intro sts st hg hm
    cases r with
    | exn e => simp [gather_results] at hg
    | resp st2 =>
      rcases hrest : gather_results rest with e2 | sts2
      · rw [gather_results, hrest] at hg; cases hg
      · rw [gather_results, hrest] at hg
        cases hg
        rcases List.mem_cons.mp hm with h | h
        · injection h with h2
          subst h2
          exact List.mem_cons_self _ _
        · exact List.mem_cons_of_mem _ (ih sts2 st hrest h)

/-- A 4xx or 5xx status among the checked responses makes the final
`raise_for_status` loop raise. -/
theorem check_responses_error_of_bad :
    ∀ (sts : List Nat) (st : Nat), st ∈ sts → 400 ≤ st → st < 600 →
      ∃ e, check_responses sts = Except.error e := by
  intro sts st hmem h4 h6
  induction sts with
  | nil => cases hmem
  | cons s2 rest ih =>
    rcases List.mem_cons.mp hmem with h | h
    · subst h
      have hr : raise_for_status st = Except.error ("HTTPError " ++ toString st) := by
        simp [raise_for_status, h4, h6]
      exact ⟨"HTTPError " ++ toString st, by simp [check_responses, hr]⟩
    · cases hr : raise_for_status s2 with
      | error e => exact ⟨e, by simp [check_responses, hr]⟩
      | ok u =>
        obtain ⟨e, hc⟩ := ih h
        exact ⟨e, by simp [check_responses, hr, hc]⟩

/-- Claim C4: if any one dispatched request of the batch fails — a
transport exception or a 4xx/5xx response — the whole upload reports
failure, whatever the other responses were: either the gather re-raises the
exception or the final status check raises `HTTPError`.  There is no
per-record retry: each built request is dispatched exactly once
(`reqs.map net`). -/
theorem upload_batch_fails_on_any_failure :
    ∀ (base : String) (arr : List Json) (net : UpsertRequest → PostResult)
      (reqs : List UpsertRequest) (diags : List String) (r : UpsertRequest),
      buildRequests base arr = Except.ok (reqs, diags) →
      r ∈ reqs → respFailed (net r) = true →
      ∃ e, upload_kibana_saved_json base arr net = Except.error e := by
  intro base arr net reqs diags r hb hr hf
  have hmem : net r ∈ reqs.map net := List.mem_map_of_mem net hr
  cases hnr : net r with
  | exn e =>
    obtain ⟨e2, hg⟩ := gather_results_error_of_exn (reqs.map net) e (hnr ▸ hmem)
    exact ⟨e2, by simp [upload_kibana_saved_json, hb, hg]⟩
  | resp st =>
    have hst : 400 ≤ st ∧ st < 600 := by
      rw [hnr] at hf
      simpa [respFailed] using hf
    rcases hg : gather_results (reqs.map net) with e2 | sts
    · exact ⟨e2, by simp [upload_kibana_saved_json, hb, hg]⟩
    · have hin : st ∈ sts := gather_results_mem_ok (reqs.map net) sts st hg (hnr ▸ hmem)
      obtain ⟨e3, hc⟩ := check_responses_error_of_bad sts st hin hst.1 hst.2
      exact ⟨e3, by simp [upload_kibana_saved_json, hb, hg, hc]⟩

/-- Witness for C4: a single-record batch whose only request is answered
with HTTP 500 reports failure. -/
theorem upload_batch_fails_on_any_failure_witness :
    ∃ e, upload_kibana_saved_json "http://k" [recC4] netC4 = Except.error e :=
  upload_batch_fails_on_any_failure "http://k" [recC4] netC4 [reqC4] [] reqC4
    rfl (List.Mem.head _) rfl

/-- A true `keyOk` yields the successful `getItem` value. -/
theorem keyOk_exists :
    ∀ (obj : Json) (k : String), keyOk obj k = true → ∃ v, getItem obj k = Except.ok v := by
  intro obj k h
  cases hg : getItem obj k with
  | ok v => exact ⟨v, rfl⟩
  | error e => simp [keyOk, hg] at h

/-- A false `keyOk` yields the `getItem` error. -/
theorem keyOk_error :
    ∀ (obj : Json) (k : String), keyOk obj k = false → ∃ e, getItem obj k = Except.error e := by
  intro obj k h
  cases hg : getItem obj k with
  | ok v => simp [keyOk, hg] at h
  | error e => exact ⟨e, rfl⟩

/-- Eligibility of a record in terms of its `_type` value. -/
theorem recordEligible_of_type :
    ∀ (obj t : Json), getItem obj "_type" = Except.ok t →
      recordEligible obj = isEligibleType t := by
  intro obj t h
  simp [recordEligible, h]

/-- The defaulted field observer agrees with a successful `getItem`. -/
theorem fieldOr_eq :
    ∀ (obj : Json) (k : String) (v : Json), getItem obj k = Except.ok v → fieldOr obj k = v := by
  intro obj k v h
  simp [fieldOr, h]

/-- On an array of well-formed records, request building succeeds and
produces exactly the requests of the eligible records and the diagnostics
of the ineligible ones, in input order. -/
theorem buildRequests_wf_eq :
    ∀ (base : String) (arr : List Json), (∀ o ∈ arr, wellFormed o = true) →
      buildRequests base arr = Except.ok
        ((arr.filter recordEligible).map
           (fun o => mkUpsertRequest base (fieldOr o "_type") (fieldOr o "_id") (fieldOr o "_source")),
         (arr.filter (fun o => ! recordEligible o)).map diagMsg) := by
  intro base arr
  induction arr with
  | nil => intro h; rfl
  | cons o rest ih =>
    intro h
    have ho := h o (List.mem_cons_self o rest)
    have hrest := ih (fun x hx => h x (List.mem_cons_of_mem o hx))
    rw [wellFormed, Bool.and_eq_true] at ho
    obtain ⟨hT, hB⟩ := ho
    obtain ⟨t, ht⟩ := keyOk_exists o "_type" hT
    have hRE : recordEligible o = isEligibleType t := recordEligible_of_type o t ht
    cases hE : isEligibleType t with
    | false =>
      have hREf : recordEligible o = false := by rw [hRE, hE]
      simp only [buildRequests, ht, hE]
      rw [hrest]
      simp [List.filter_cons, hREf, diagMsg, fieldOr_eq o "_type" t ht]
    | true =>
      have hREt : recordEligible o = true := by rw [hRE, hE]
      rw [hREt] at hB
      simp only [Bool.not_true, Bool.false_or, Bool.and_eq_true] at hB
      obtain ⟨hI, hS⟩ := hB
      obtain ⟨idv, hid⟩ := keyOk_exists o "_id" hI
      obtain ⟨src, hsrc⟩ := keyOk_exists o "_source" hS
      simp only [buildRequests, ht, hE, hid, hsrc]
      rw [hrest]
      simp [List.filter_cons, hREt, fieldOr_eq o "_type" t ht,
        fieldOr_eq o "_id" idv hid, fieldOr_eq o "_source" src hsrc]

/-- Claim C7: on an input array of well-formed records, request building
succeeds; the number of dispatched requests equals the number of records
whose type is recognized (each eligible record contributes exactly one
upsert request, each other record contributes none), and the stderr
diagnostics are exactly one message per unrecognized-type record, naming
that type. -/
theorem upload_request_and_diag_counts :
    ∀ (base : String) (arr : List Json), (∀ o ∈ arr, wellFormed o = true) →
      ∃ reqs diags, buildRequests base arr = Except.ok (reqs, diags) ∧
        reqs.length = (arr.filter recordEligible).length ∧
        diags = (arr.filter (fun o => ! recordEligible o)).map diagMsg := by
  intro base arr h
  refine ⟨_, _, buildRequests_wf_eq base arr h, ?_, rfl⟩
  simp

/-- Witness for C7: a two-record batch with one eligible dashboard and one
record of unknown type `widget` builds one request and one diagnostic. -/
theorem upload_request_and_diag_counts_witness :
    ∃ reqs diags, buildRequests "http://k" [recC7a, recC7b] = Except.ok (reqs, diags) ∧
      reqs.length = ([recC7a, recC7b].filter recordEligible).length ∧
      diags = ([recC7a, recC7b].filter (fun o => ! recordEligible o)).map diagMsg :=
  upload_request_and_diag_counts "http://k" [recC7a, recC7b] (by decide)

/-- Claim C8: for an eligible record, the assembled request is a POST to
`{base}/api/saved_objects/{type}/{id}?overwrite=true` carrying the header
`kbn-xsrf: anything` and the body `obj("attributes" = source)`. -/
theorem upload_request_shape :
    ∀ (base : String) (obj : Json) (t : String) (idv src : Json) (rest : List Json)
      (reqs : List UpsertRequest) (diags : List String),
      getItem obj "_type" = Except.ok (Json.str t) →
      kibanaTypes.contains t = true →
      getItem obj "_id" = Except.ok idv →
      getItem obj "_source" = Except.ok src →
      buildRequests base rest = Except.ok (reqs, diags) →
      buildRequests base (obj :: rest) = Except.ok
        ({ method := "POST"
         , url := base ++ "/api/saved_objects/" ++ t ++ "/" ++ pyStr idv ++ "?overwrite=true"
         , headers := [("kbn-xsrf", "anything")]
         , body := Json.obj [("attributes", src)] } :: reqs, diags) := by
  intro base obj t idv src rest reqs diags ht hel hid hsrc hrest
  have hE : isEligibleType (Json.str t) = true := hel
  simp [buildRequests, ht, hE, hid, hsrc, hrest, mkUpsertRequest, pyStr]

/-- Witness for C8: the request built for a concrete visualization record,
with the target path spelled out. -/
theorem upload_request_shape_witness :
    buildRequests "http://k" [objC8] = Except.ok
      ([{ method := "POST"
        , url := "http://k/api/saved_objects/visualization/viz8?overwrite=true"
        , headers := [("kbn-xsrf", "anything")]
        , body := Json.obj [("attributes", srcC8)] }], []) :=
  upload_request_shape "http://k" objC8 "visualization" (Json.str "viz8") srcC8 [] [] []
    rfl rfl rfl rfl rfl

/-- An ill-formed record anywhere in the array makes request building
raise. -/
theorem buildRequests_error_of_illFormed :
    ∀ (base : String) (arr : List Json),
      (∃ o, o ∈ arr ∧ wellFormed o = false) →
      ∃ e, buildRequests base arr = Except.error e := by
  intro base arr
  induction arr with
  | nil => rintro ⟨o, ho, _⟩; cases ho
  | cons o rest ih =>
    rintro ⟨x, hx, hwf⟩
    rcases List.mem_cons.mp hx with hxo | hxr
    · subst hxo
      rw [wellFormed] at hwf
      cases hT : keyOk x "_type" with
      | false =>
        obtain ⟨e, he⟩ := keyOk_error x "_type" hT
        exact ⟨e, by simp [buildRequests, he]⟩
      | true =>
        rw [hT, Bool.true_and] at hwf
        have hRE : recordEligible x = true := by
          cases hre : recordEligible x with
          | true => rfl
          | false => rw [hre] at hwf; simp at hwf
        rw [hRE] at hwf
        simp only [Bool.not_true, Bool.false_or] at hwf
        obtain ⟨t, ht⟩ := keyOk_exists x "_type" hT
        have hEt : isEligibleType t = true := by
          rw [recordEligible_of_type x t ht] at hRE; exact hRE
        cases hI : keyOk x "_id" with
        | false =>
          obtain ⟨e, he⟩ := keyOk_error x "_id" hI
          exact ⟨e, by simp [buildRequests, ht, hEt, he]⟩
        | true =>
          rw [hI, Bool.true_and] at hwf
          obtain ⟨idv, hid⟩ := keyOk_exists x "_id" hI
          obtain ⟨e, he⟩ := keyOk_error x "_source" hwf
          exact ⟨e, by simp [buildRequests, ht, hEt, hid, he]⟩
    · obtain ⟨e, he⟩ := ih ⟨x, hxr, hwf⟩
      cases hg : getItem o "_type" with
      | error e2 => exact ⟨e2, by simp [buildRequests, hg]⟩
      | ok t =>
        cases hE : isEligibleType t with
        | false => exact ⟨e, by simp [buildRequests, hg, hE, he]⟩
        | true =>
          cases hid : getItem o "_id" with
          | error e2 => exact ⟨e2, by simp [buildRequests, hg, hE, hid]⟩
          | ok idv =>
            cases hsrc : getItem o "_source" with
            | error e2 => exact ⟨e2, by simp [buildRequests, hg, hE, hid, hsrc]⟩
            | ok src => exact ⟨e, by simp [buildRequests, hg, hE, hid, hsrc, he]⟩

/-- Claim C9: the upload requires `_type` on every record, and `_id` and
`_source` on every record of a recognized type; an array containing a record
that misses one of them makes the upload raise (for every response oracle),
rather than skipping that record with a diagnostic. -/
theorem upload_raises_on_missing_field :
    ∀ (base : String) (arr : List Json) (net : UpsertRequest → PostResult),
      (∃ o, o ∈ arr ∧ wellFormed o = false) →
      ∃ e, upload_kibana_saved_json base arr net = Except.error e := by
  intro base arr net h
  obtain ⟨e, he⟩ := buildRequests_error_of_illFormed base arr h
  exact ⟨e, by simp [upload_kibana_saved_json, he]⟩

/-- Witness for C9: a batch containing an empty record (no `_type`) raises
even though the oracle would answer 200. -/
theorem upload_raises_on_missing_field_witness :
    ∃ e, upload_kibana_saved_json "http://k" [Json.obj []]
      (fun _ => PostResult.resp 200) = Except.error e :=
  upload_raises_on_missing_field "http://k" [Json.obj []] (fun _ => PostResult.resp 200)
    ⟨Json.obj [], List.Mem.head _, rfl⟩

/-- A retryable poll makes the loop iteration retry. -/
theorem wait_step_retry :
    ∀ p, retryablePoll p → wait_step p = WaitStep.retry := by
  intro p h
  rcases h with h | ⟨code, body, j, v, hp, hcode, hj, hh, hg⟩
  · subst h; rfl
  · subst hp
    have hr : raise_for_status code = Except.ok () := by simp [raise_for_status, hcode]
    simp [wait_step, hr, hj, hh, hg]

/-- A green poll makes the loop iteration break. -/
theorem wait_step_done :
    ∀ p, greenPoll p → wait_step p = WaitStep.done := by
  intro p h
  rcases h with ⟨code, body, j, v, hp, hcode, hj, hh, hg⟩
  subst hp
  have hr : raise_for_status code = Except.ok () := by simp [raise_for_status, hcode]
  simp [wait_step, hr, hj, hh, hg]

/-- A run over retryable polls only is still looping when the fuel runs
out, whatever the starting index. -/
theorem wait_run_none_aux :
    ∀ (fuel s : Nat) (polls : Nat → PollOutcome),
      (∀ i, i < fuel → retryablePoll (polls (s + i))) → wait_run polls s fuel = none := by
  intro fuel
  induction fuel with
  | zero => intro s polls _; rfl
  | succ f ih =>
    intro s polls h
    have h0 : retryablePoll (polls s) := by simpa using h 0 (Nat.succ_pos f)
    rw [wait_run, wait_step_retry (polls s) h0]
    exact ih (s + 1) polls (fun i hi => by
      have h2 := h (i + 1) (Nat.succ_lt_succ hi)
      rwa [show s + (i + 1) = s + 1 + i from by omega] at h2)

/-- A run over a retryable prefix followed by a green poll returns right
after the green poll, whatever the starting index. -/
theorem wait_run_green_aux :
    ∀ (n fuel s : Nat) (polls : Nat → PollOutcome),
      (∀ i, i < n → retryablePoll (polls (s + i))) → greenPoll (polls (s + n)) →
      n < fuel → wait_run polls s fuel = some (WaitResult.returns (s + n + 1)) := by
  intro n
  induction n with
  | zero =>
    intro fuel s polls _ hg hlt
    cases fuel with
    | zero => exact absurd hlt (by omega)
    | succ f =>
      rw [wait_run, wait_step_done _ (by simpa using hg)]
  | succ m ih =>
    intro fuel s polls hr hg hlt
    cases fuel with
    | zero => exact absurd hlt (by omega)
    | succ f =>
      have h0 : retryablePoll (polls s) := by simpa using hr 0 (by omega)
      rw [wait_run, wait_step_retry (polls s) h0]
      have hres := ih f (s + 1) polls
        (fun i hi => by
          have h2 := hr (i + 1) (by omega)
          rwa [show s + (i + 1) = s + 1 + i from by omega] at h2)
        (by rwa [show s + (m + 1) = s + 1 + m from by omega] at hg)
        (by omega)
      rwa [show s + 1 + m + 1 = s + (m + 1) + 1 from by omega] at hres

/-- Claim C3, amended: `wait_for_green_status` treats connection failures
and well-formed non-green health responses as "not ready yet", sleeping a
fixed 100ms before each retry, for as long as they last (first conjunct:
the loop is still running after any number of such polls), and it returns
exactly after the first green poll following such a prefix (second
conjunct).  The claim as frozen also covered non-success HTTP statuses,
which in fact raise; see the counterexample. -/
theorem wait_for_green_retry_behaviour :
    (∀ (polls : Nat → PollOutcome) (fuel : Nat),
       (∀ i, i < fuel → retryablePoll (polls i)) → wait_run polls 0 fuel = none) ∧
    (∀ (polls : Nat → PollOutcome) (n fuel : Nat),
       (∀ i, i < n → retryablePoll (polls i)) → greenPoll (polls n) → n < fuel →
       wait_run polls 0 fuel = some (WaitResult.returns (n + 1))) := by
  constructor
  · intro polls fuel h
    exact wait_run_none_aux fuel 0 polls (fun i hi => by simpa using h i hi)
  · intro polls n fuel hr hg hlt
    have hres := wait_run_green_aux n fuel 0 polls
      (fun i hi => by simpa using hr i hi) (by simpa using hg) hlt
    simpa using hres

/-- Witness for the amended C3: one connection failure, one yellow
response, then a green response; the wait returns after the third poll. -/
theorem wait_for_green_retry_behaviour_witness :
    wait_run pollsC3 0 5 = some (WaitResult.returns 3) :=
  wait_for_green_retry_behaviour.2 pollsC3 2 5
    (fun i hi => by
      interval_cases i
      · exact Or.inl rfl
      · exact Or.inr ⟨200, bodyYellowC3,
          Json.obj [("status", Json.obj [("overall", Json.obj [("state", Json.str "yellow")])])],
          Json.str "yellow", rfl, by decide, rfl, rfl, rfl⟩)
    ⟨200, bodyGreenC3,
      Json.obj [("status", Json.obj [("overall", Json.obj [("state", Json.str "green")])])],
      Json.str "green", rfl, by decide, rfl, rfl, rfl⟩
    (by omega)
